import Mathlib

/-!
Verification of the next_gen server framework core against its
natural-language specification.

The definitions below are a shallow embedding of the C++ sources of the
repository.  The authoritative program is the set of translation units
named by CMakeLists.txt (src/core/service.cpp, src/network/net_service.cpp,
src/network/tcp_session.cpp, src/utils/timer.cpp, src/utils/timer_manager.cpp,
src/message/message_queue.cpp, ...) together with the headers they include;
the repository also carries a legacy include tree (include/next_gen/...)
with divergent inline duplicates of several classes, which nothing in the
build includes.  Where the two disagree and a claim depends on it, both
variants are embedded side by side.

Machine integers are modelled as Nat; the fields involved (sizes, ids,
timestamps) never overflow in the scenarios the claims quantify over, and
where a fixed-width read matters (the 7-byte TCP header) the byte
arithmetic is written out explicitly.  Blocking waits on condition
variables are modelled at their post-wake observation point: an operation
that can only return after the wait predicate holds is defined by what it
does once the predicate holds, and the branch where a sequential caller
would block forever is represented by an explicit outcome constructor.
-/

namespace NextGen

/-! Association-list model of std::unordered_map.  Lookup returns the
first binding; update rewrites the first binding in place or appends;
erase removes every binding of the key (maps hold at most one). -/

def alookup {κ α : Type} [DecidableEq κ] : List (κ × α) → κ → Option α
  | [], _ => none
  | (k, v) :: rest, key => if k = key then some v else alookup rest key

def aupdate {κ α : Type} [DecidableEq κ] : List (κ × α) → κ → α → List (κ × α)
  | [], key, v => [(key, v)]
  | (k, w) :: rest, key, v =>
      if k = key then (k, v) :: rest else (k, w) :: aupdate rest key v

def aerase {κ α : Type} [DecidableEq κ] : List (κ × α) → κ → List (κ × α)
  | [], _ => []
  | (k, v) :: rest, key =>
      if k = key then aerase rest key else (k, v) :: aerase rest key

theorem alookup_aupdate_self {κ α : Type} [DecidableEq κ]
    (l : List (κ × α)) (k : κ) (v : α) : alookup (aupdate l k v) k = some v := by
  induction l with
  | nil => simp [aupdate, alookup]
  | cons hd tl ih =>
      by_cases h : hd.1 = k
      · simp [aupdate, alookup, h]
      · simp [aupdate, alookup, h, ih]

theorem alookup_aupdate_ne {κ α : Type} [DecidableEq κ]
    (l : List (κ × α)) (k k' : κ) (v : α) (h : k ≠ k') :
    alookup (aupdate l k v) k' = alookup l k' := by
  induction l with
  | nil => simp [aupdate, alookup, h]
  | cons hd tl ih =>
      by_cases hh : hd.1 = k
      · simp [aupdate, alookup, hh, h]
      · simp [aupdate, alookup, hh, ih]

theorem alookup_aerase_self {κ α : Type} [DecidableEq κ]
    (l : List (κ × α)) (k : κ) : alookup (aerase l k) k = none := by
  induction l with
  | nil => simp [aerase, alookup]
  | cons hd tl ih =>
      by_cases h : hd.1 = k
      · simp [aerase, h, ih]
      · simp [aerase, alookup, h, ih]

theorem alookup_aerase_ne {κ α : Type} [DecidableEq κ]
    (l : List (κ × α)) (k k' : κ) (h : k ≠ k') :
    alookup (aerase l k) k' = alookup l k' := by
  induction l with
  | nil => simp [aerase]
  | cons hd tl ih =>
      by_cases hh : hd.1 = k
      · simp [aerase, alookup, hh, h, ih]
      · simp [aerase, alookup, hh, ih]

theorem aerase_of_not_mem {κ α : Type} [DecidableEq κ]
    (l : List (κ × α)) (k : κ) (h : alookup l k = none) : aerase l k = l := by
  induction l with
  | nil => simp [aerase]
  | cons hd tl ih =>
      by_cases hh : hd.1 = k
      · simp [alookup, hh] at h
      · simp [alookup, hh] at h
        simp [aerase, hh, ih h]

/-! Message model (include/message/message.h and
include/next_gen/message/message.h): a message carries a u8 category, a
u16 id, a session id, a millisecond timestamp and an opaque payload; the
payload is abstracted to a Nat so that messages have decidable identity. -/

structure Message where
  category : Nat
  msgId : Nat
  sessionId : Nat
  timestamp : Nat
  payload : Nat
deriving DecidableEq, Repr

/-! Error codes (include/next_gen/utils/error.h; the SESSION codes come
from the copy of the enum embedded in the include/utils tree).
HANDLER_ALREADY_REGISTERED and MODULE_ALREADY_REGISTERED appear only in
src/core/service.cpp and are missing from every declared enum in the
repository; they are included here so that service.cpp can be embedded
as written. -/

inductive ErrorCode
  | SUCCESS
  | UNKNOWN_ERROR
  | NOT_IMPLEMENTED
  | INVALID_ARGUMENT
  | OUT_OF_RANGE
  | SYSTEM_ERROR
  | NETWORK_ERROR
  | CONNECTION_FAILED
  | CONNECTION_CLOSED
  | TIMEOUT
  | MESSAGE_ERROR
  | INVALID_MESSAGE
  | MESSAGE_TOO_LARGE
  | SERVICE_ERROR
  | SERVICE_NOT_FOUND
  | SERVICE_ALREADY_EXISTS
  | SERVICE_NOT_STARTED
  | SERVICE_ALREADY_STARTED
  | SESSION_ERROR
  | SESSION_NOT_FOUND
  | SESSION_ALREADY_EXISTS
  | MODULE_ERROR
  | MODULE_NOT_FOUND
  | MODULE_ALREADY_EXISTS
  | MODULE_INITIALIZATION_FAILED
  | HANDLER_ALREADY_REGISTERED
  | MODULE_ALREADY_REGISTERED
deriving DecidableEq, Repr

/-! DefaultMessageQueue (include/next_gen/message/message_queue.h lines
49-198; src/message/message_queue.cpp carries a byte-for-byte equivalent
out-of-line copy).  State: a FIFO of owned messages, the bound max_size
(0 means unbounded) and the shutdown flag. -/

structure DefaultMessageQueue where
  queue : List Message
  max_size : Nat
  shutdown_ : Bool
deriving DecidableEq, Repr

inductive PushOutcome
  | enqueued
  | droppedShutdown
  | blockedFull
deriving DecidableEq, Repr

/-- push (message_queue.h lines 59-88): a shut-down queue logs a warning
and drops the message; a full bounded queue waits on the not_full
condition (in the sequential model this wait can only be released by
shutdown, so the branch is recorded as blockedFull); otherwise the
message is appended at the back. -/
def DefaultMessageQueue.push (q : DefaultMessageQueue) (m : Message) :
    DefaultMessageQueue × PushOutcome :=
  if q.shutdown_ then (q, .droppedShutdown)
  else if 0 < q.max_size ∧ q.max_size ≤ q.queue.length then (q, .blockedFull)
  else ({ q with queue := q.queue ++ [m] }, .enqueued)

/-- pop (message_queue.h lines 91-113): waits until the queue is
non-empty or shut down; modelled at the post-wake observation, a woken
pop on an empty (hence shut-down) queue returns nullptr, otherwise it
removes and returns the front message. -/
def DefaultMessageQueue.pop (q : DefaultMessageQueue) :
    DefaultMessageQueue × Option Message :=
  match q.queue with
  | [] => (q, none)
  | m :: rest => ({ q with queue := rest }, some m)

/-- tryPop (message_queue.h lines 116-132): empty queue returns nullptr,
otherwise removes and returns the front message. -/
def DefaultMessageQueue.tryPop (q : DefaultMessageQueue) :
    DefaultMessageQueue × Option Message :=
  match q.queue with
  | [] => (q, none)
  | m :: rest => ({ q with queue := rest }, some m)

/-- waitAndPop (message_queue.h lines 135-156): waits with a timeout for
non-empty-or-shutdown; on timeout or an empty queue returns nullptr,
otherwise removes and returns the front message. -/
def DefaultMessageQueue.waitAndPop (q : DefaultMessageQueue) :
    DefaultMessageQueue × Option Message :=
  match q.queue with
  | [] => (q, none)
  | m :: rest => ({ q with queue := rest }, some m)

/-- clear (message_queue.h lines 171-176): swaps the queue with an empty
one; the shutdown flag is not touched. -/
def DefaultMessageQueue.clear (q : DefaultMessageQueue) : DefaultMessageQueue :=
  { q with queue := [] }

/-- shutdown (message_queue.h lines 179-184): sets the shutdown flag and
wakes all waiters. -/
def DefaultMessageQueue.shutdown (q : DefaultMessageQueue) : DefaultMessageQueue :=
  { q with shutdown_ := true }

/-- isShutdown (message_queue.h lines 187-189). -/
def DefaultMessageQueue.isShutdown (q : DefaultMessageQueue) : Bool :=
  q.shutdown_

/-- Outcomes of n successive pop calls. -/
def popSeq : Nat → DefaultMessageQueue → List (Option Message)
  | 0, _ => []
  | n + 1, q =>
      let r := q.pop
      r.2 :: popSeq n r.1

/-- Operations a client can issue on a DefaultMessageQueue (the full
MessageQueue interface, message_queue.h lines 16-46). -/
inductive QueueOp
  | pushOp (m : Message)
  | popOp
  | tryPopOp
  | waitAndPopOp
  | clearOp
  | shutdownOp
deriving DecidableEq, Repr

def queueStep (op : QueueOp) (q : DefaultMessageQueue) : DefaultMessageQueue :=
  match op with
  | .pushOp m => (q.push m).1
  | .popOp => q.pop.1
  | .tryPopOp => q.tryPop.1
  | .waitAndPopOp => q.waitAndPop.1
  | .clearOp => q.clear
  | .shutdownOp => q.shutdown

def runQueueOps (ops : List QueueOp) (q : DefaultMessageQueue) : DefaultMessageQueue :=
  ops.foldl (fun acc op => queueStep op acc) q

theorem popSeq_spec (n : Nat) (q : DefaultMessageQueue) :
    popSeq n q = (q.queue.take n).map some
      ++ List.replicate (n - q.queue.length) none := by
  induction n generalizing q with
  | zero => simp [popSeq]
  | succ n ih =>
      match hq : q.queue with
      | [] =>
          simp [popSeq, DefaultMessageQueue.pop, hq, ih, List.replicate_succ]
      | m :: rest =>
          simp [popSeq, DefaultMessageQueue.pop, hq, ih, Nat.succ_sub_succ]

theorem queueStep_shutdown_mono (op : QueueOp) (q : DefaultMessageQueue)
    (h : q.shutdown_ = true) : (queueStep op q).shutdown_ = true := by
  cases op <;>
    simp [queueStep, DefaultMessageQueue.push, DefaultMessageQueue.pop,
      DefaultMessageQueue.tryPop, DefaultMessageQueue.waitAndPop,
      DefaultMessageQueue.clear, DefaultMessageQueue.shutdown, h]
  case popOp => cases q.queue <;> simp [DefaultMessageQueue.pop, h]
  case tryPopOp => cases q.queue <;> simp [DefaultMessageQueue.tryPop, h]
  case waitAndPopOp => cases q.queue <;> simp [DefaultMessageQueue.waitAndPop, h]

theorem runQueueOps_shutdown_mono (ops : List QueueOp) (q : DefaultMessageQueue)
    (h : q.shutdown_ = true) : (runQueueOps ops q).shutdown_ = true := by
  induction ops generalizing q with
  | nil => simpa [runQueueOps] using h
  | cons op rest ih =>
      have : runQueueOps (op :: rest) q = runQueueOps rest (queueStep op q) := by
        simp [runQueueOps]
      rw [this]
      exact ih _ (queueStep_shutdown_mono op q h)

/-- C5 -- On a DefaultMessageQueue on which shutdown() has been called:
every push leaves the state unchanged and reports the dropped-on-shutdown
outcome (the warning branch of push), and n successive pops return
exactly the previously enqueued messages in FIFO order followed by
nullptr results once the queue is drained. -/
theorem defaultQueue_post_shutdown_push_drops_pop_drains
    (q : DefaultMessageQueue) (m : Message) (n : Nat) :
    (q.shutdown.push m).1 = q.shutdown
      ∧ (q.shutdown.push m).2 = PushOutcome.droppedShutdown
      ∧ popSeq n q.shutdown
          = (q.queue.take n).map some ++ List.replicate (n - q.queue.length) none := by
  refine ⟨?_, ?_, ?_⟩
  · simp [DefaultMessageQueue.push, DefaultMessageQueue.shutdown]
  · simp [DefaultMessageQueue.push, DefaultMessageQueue.shutdown]
  · have h := popSeq_spec n q.shutdown
    simpa [DefaultMessageQueue.shutdown] using h

/-- C9 -- The shutdown flag of DefaultMessageQueue is monotone: calling
shutdown() makes isShutdown() report true, it still reports true after
every further sequence of push, pop, tryPop, waitAndPop, clear and
shutdown operations, no single one of these operations resets the flag
on a shut-down queue, and in particular clear() empties the queue while
leaving it shut down. -/
theorem defaultQueue_shutdown_monotone (q : DefaultMessageQueue) (ops : List QueueOp) :
    q.shutdown.isShutdown = true
      ∧ (runQueueOps ops q.shutdown).isShutdown = true
      ∧ (∀ (op : QueueOp) (q2 : DefaultMessageQueue),
          (queueStep op q2.shutdown).isShutdown = true)
      ∧ q.shutdown.clear.queue = []
      ∧ q.shutdown.clear.isShutdown = true := by
  refine ⟨?_, ?_, ?_, ?_, ?_⟩
  · simp [DefaultMessageQueue.shutdown, DefaultMessageQueue.isShutdown]
  · exact runQueueOps_shutdown_mono ops q.shutdown
      (by simp [DefaultMessageQueue.shutdown])
  · intro op q2
    exact queueStep_shutdown_mono op q2.shutdown
      (by simp [DefaultMessageQueue.shutdown])
  · simp [DefaultMessageQueue.clear]
  · simp [DefaultMessageQueue.clear, DefaultMessageQueue.shutdown,
      DefaultMessageQueue.isShutdown]

/-! PriorityMessageQueue (include/next_gen/message/message_queue.h lines
201-379; src/message/message_queue.cpp and
src/message/priority_compare.cpp carry the same comparator out of line).
The std::priority_queue with comparator PriorityCompare
(a.first < b.first) is a max-heap on the priority component; which of
several tied maxima is at the top is unspecified by the source, and the
model commits to the first-pushed maximal element.  calculatePriority
(lines 352-356) is the message category. -/

def calculatePriority (m : Message) : Int :=
  (m.category : Int)

structure PriorityMessageQueue where
  heap : List (Int × Message)
  max_size : Nat
  shutdown_ : Bool
deriving DecidableEq, Repr

/-- Selects the element std::priority_queue::top() denotes: an element
whose priority component is maximal, together with the remaining
contents.  Returns none on an empty heap. -/
def heapTop : List (Int × Message) → Option ((Int × Message) × List (Int × Message))
  | [] => none
  | x :: xs =>
      match heapTop xs with
      | none => some (x, [])
      | some (y, rest) => if x.1 < y.1 then some (y, x :: rest) else some (x, xs)

/-- push (message_queue.h lines 211-243): drop when shut down, wait when
full, otherwise insert the message paired with calculatePriority. -/
def PriorityMessageQueue.push (q : PriorityMessageQueue) (m : Message) :
    PriorityMessageQueue × PushOutcome :=
  if q.shutdown_ then (q, .droppedShutdown)
  else if 0 < q.max_size ∧ q.max_size ≤ q.heap.length then (q, .blockedFull)
  else ({ q with heap := q.heap ++ [(calculatePriority m, m)] }, .enqueued)

/-- pop (message_queue.h lines 246-268): returns nullptr on an empty
(shut-down) heap, otherwise removes and returns queue_.top().second. -/
def PriorityMessageQueue.pop (q : PriorityMessageQueue) :
    PriorityMessageQueue × Option Message :=
  match heapTop q.heap with
  | none => (q, none)
  | some (top, rest) => ({ q with heap := rest }, some top.2)

/-- Repeatedly take the top of the heap; fuel bounds the recursion and is
instantiated with the heap length. -/
def drainPairsAux : Nat → List (Int × Message) → List (Int × Message)
  | 0, _ => []
  | fuel + 1, l =>
      match heapTop l with
      | none => []
      | some (y, rest) => y :: drainPairsAux fuel rest

/-- The sequence of messages returned by popping the priority queue until
it is empty. -/
def PriorityMessageQueue.drainAll (q : PriorityMessageQueue) : List Message :=
  (drainPairsAux q.heap.length q.heap).map (fun p => p.2)

def pushList (msgs : List Message) (q : PriorityMessageQueue) : PriorityMessageQueue :=
  msgs.foldl (fun acc m => (acc.push m).1) q

def emptyPriorityQueue : PriorityMessageQueue :=
  { heap := [], max_size := 0, shutdown_ := false }

/-- Delivery order of a batch of messages pushed in list order into a
fresh unbounded PriorityMessageQueue and then popped to exhaustion. -/
def priorityDeliveries (msgs : List Message) : List Message :=
  (pushList msgs emptyPriorityQueue).drainAll

theorem heapTop_eq_none {l : List (Int × Message)} (h : heapTop l = none) : l = [] := by
  cases l with
  | nil => rfl
  | cons x xs =>
      simp only [heapTop] at h
      split at h
      · exact absurd h (by simp)
      · split at h <;> exact absurd h (by simp)

theorem heapTop_perm {l : List (Int × Message)} {y : Int × Message}
    {rest : List (Int × Message)} (h : heapTop l = some (y, rest)) :
    l.Perm (y :: rest) := by
  induction l generalizing y rest with
  | nil => simp [heapTop] at h
  | cons x xs ih =>
      simp only [heapTop] at h
      split at h
      · rename_i hx
        have hxs : xs = [] := heapTop_eq_none hx
        injection h with h
        injection h with h1 h2
        subst hxs; subst h1; subst h2
        exact List.Perm.refl _
      · rename_i y' rest' hx
        split at h
        · rename_i hlt
          injection h with h
          injection h with h1 h2
          subst h1; subst h2
          have hp : xs.Perm (y' :: rest') := ih hx
          have hone : (x :: xs).Perm (x :: y' :: rest') := hp.cons x
          have htwo : (x :: y' :: rest').Perm (y' :: x :: rest') :=
            List.Perm.swap y' x rest'
          exact hone.trans htwo
        · injection h with h
          injection h with h1 h2
          subst h1; subst h2
          exact List.Perm.refl _

theorem heapTop_max {l : List (Int × Message)} {y : Int × Message}
    {rest : List (Int × Message)} (h : heapTop l = some (y, rest)) :
    ∀ z ∈ l, z.1 ≤ y.1 := by
  induction l generalizing y rest with
  | nil => simp [heapTop] at h
  | cons x xs ih =>
      simp only [heapTop] at h
      split at h
      · rename_i hx
        have hxs : xs = [] := heapTop_eq_none hx
        injection h with h
        injection h with h1 h2
        subst hxs; subst h1
        intro z hz
        simp at hz
        rw [hz]
      · rename_i y' rest' hx
        split at h
        · rename_i hlt
          injection h with h
          injection h with h1 h2
          subst h1
          intro z hz
          rcases List.mem_cons.mp hz with hzx | hzxs
          · rw [hzx]; exact le_of_lt hlt
          · exact ih hx z hzxs
        · rename_i hlt
          injection h with h
          injection h with h1 h2
          subst h1
          intro z hz
          rcases List.mem_cons.mp hz with hzx | hzxs
          · rw [hzx]
          · exact le_trans (ih hx z hzxs) (not_lt.mp hlt)

theorem heapTop_length {l : List (Int × Message)} {y : Int × Message}
    {rest : List (Int × Message)} (h : heapTop l = some (y, rest)) :
    l.length = rest.length + 1 := by
  have := (heapTop_perm h).length_eq
  simpa using this

theorem drainPairsAux_perm (fuel : Nat) (l : List (Int × Message))
    (hf : l.length ≤ fuel) : (drainPairsAux fuel l).Perm l := by
  induction fuel generalizing l with
  | zero =>
      have : l = [] := List.length_eq_zero.mp (Nat.le_zero.mp hf)
      simp [drainPairsAux, this]
  | succ fuel ih =>
      cases hx : heapTop l with
      | none =>
          have : l = [] := heapTop_eq_none hx
          simp [drainPairsAux, heapTop, this]
      | some p =>
          rcases p with ⟨y, rest⟩
          have hlen : l.length = rest.length + 1 := heapTop_length hx
          have hrest : rest.length ≤ fuel := by omega
          have hp : (drainPairsAux fuel rest).Perm rest := ih rest hrest
          have : drainPairsAux (fuel + 1) l = y :: drainPairsAux fuel rest := by
            simp [drainPairsAux, hx]
          rw [this]
          exact ((hp.cons y).trans (heapTop_perm hx).symm)

theorem drainPairsAux_sorted (fuel : Nat) (l : List (Int × Message))
    (hf : l.length ≤ fuel) :
    (drainPairsAux fuel l).Pairwise (fun a b => b.1 ≤ a.1) := by
  induction fuel generalizing l with
  | zero => simp [drainPairsAux]
  | succ fuel ih =>
      cases hx : heapTop l with
      | none => simp [drainPairsAux, hx]
      | some p =>
          rcases p with ⟨y, rest⟩
          have hlen : l.length = rest.length + 1 := heapTop_length hx
          have hrest : rest.length ≤ fuel := by omega
          have : drainPairsAux (fuel + 1) l = y :: drainPairsAux fuel rest := by
            simp [drainPairsAux, hx]
          rw [this]
          refine List.Pairwise.cons ?_ (ih rest hrest)
          intro z hz
          have hzr : z ∈ rest := (drainPairsAux_perm fuel rest hrest).mem_iff.mp hz
          have hzl : z ∈ l := (heapTop_perm hx).mem_iff.mpr (List.mem_cons_of_mem _ hzr)
          exact heapTop_max hx z hzl

theorem pushList_heap (msgs : List Message) (h : List (Int × Message)) :
    pushList msgs { heap := h, max_size := 0, shutdown_ := false }
      = { heap := h ++ msgs.map (fun m => (calculatePriority m, m)),
          max_size := 0, shutdown_ := false } := by
  induction msgs generalizing h with
  | nil => simp [pushList]
  | cons m rest ih =>
      have hstep : (PriorityMessageQueue.push
          { heap := h, max_size := 0, shutdown_ := false } m).1
          = { heap := h ++ [(calculatePriority m, m)], max_size := 0,
              shutdown_ := false } := by
        simp [PriorityMessageQueue.push]
      simp only [pushList, List.foldl_cons] at *
      rw [hstep, ih]
      simp

theorem priorityDeliveries_perm (msgs : List Message) :
    (priorityDeliveries msgs).Perm msgs := by
  unfold priorityDeliveries PriorityMessageQueue.drainAll emptyPriorityQueue
  rw [pushList_heap msgs []]
  simp only [List.nil_append]
  have hperm := drainPairsAux_perm
    (msgs.map (fun m => (calculatePriority m, m))).length
    (msgs.map (fun m => (calculatePriority m, m))) (le_refl _)
  have := hperm.map (fun p : Int × Message => p.2)
  simpa [List.map_map, Function.comp_def] using this

theorem priorityDeliveries_sorted (msgs : List Message) :
    (priorityDeliveries msgs).Pairwise
      (fun a b => calculatePriority b ≤ calculatePriority a) := by
  unfold priorityDeliveries PriorityMessageQueue.drainAll emptyPriorityQueue
  rw [pushList_heap msgs []]
  simp only [List.nil_append]
  set pairs := msgs.map (fun m => (calculatePriority m, m)) with hpairs
  have hsorted := drainPairsAux_sorted pairs.length pairs (le_refl _)
  have hperm := drainPairsAux_perm pairs.length pairs (le_refl _)
  have hmem : ∀ p ∈ drainPairsAux pairs.length pairs,
      p.1 = calculatePriority p.2 := by
    intro p hp
    have : p ∈ pairs := hperm.mem_iff.mp hp
    rw [hpairs] at this
    rcases List.mem_map.mp this with ⟨m, _, hm⟩
    rw [← hm]
  have hsorted2 : (drainPairsAux pairs.length pairs).Pairwise
      (fun a b => calculatePriority b.2 ≤ calculatePriority a.2) := by
    refine List.Pairwise.imp_of_mem ?_ hsorted
    intro a b ha hb hle
    rw [← hmem a ha, ← hmem b hb]
    exact hle
  exact (List.pairwise_map).mpr hsorted2

theorem sorted_desc_indexOf_lt {l : List Message} {m1 m2 : Message}
    (hp : l.Pairwise (fun a b => calculatePriority b ≤ calculatePriority a))
    (h1 : m1 ∈ l) (h2 : m2 ∈ l)
    (hlt : calculatePriority m1 < calculatePriority m2) :
    l.indexOf m2 < l.indexOf m1 := by
  have hne : m1 ≠ m2 := by
    intro he; rw [he] at hlt; exact lt_irrefl _ hlt
  have hi1 : l.indexOf m1 < l.length := List.indexOf_lt_length.mpr h1
  have hi2 : l.indexOf m2 < l.length := List.indexOf_lt_length.mpr h2
  by_contra hcon
  push_neg at hcon
  have hneq : l.indexOf m1 ≠ l.indexOf m2 := by
    intro he
    apply hne
    have e1 : l.get ⟨l.indexOf m1, hi1⟩ = m1 := List.indexOf_get hi1
    have e2 : l.get ⟨l.indexOf m2, hi2⟩ = m2 := List.indexOf_get hi2
    rw [← e1, ← e2]
    congr 1
    exact Fin.ext he
  have hlt' : l.indexOf m1 < l.indexOf m2 := lt_of_le_of_ne hcon hneq
  have := (List.pairwise_iff_get.mp hp) ⟨l.indexOf m1, hi1⟩ ⟨l.indexOf m2, hi2⟩ hlt'
  rw [List.indexOf_get hi1, List.indexOf_get hi2] at this
  exact absurd hlt (not_lt.mpr this)

/-- C7 -- PriorityMessageQueue delivers by descending category: if m1 is
pushed before m2 (anywhere in the push order) and category m1 is
strictly below category m2, then draining the queue delivers m2 before
m1; a higher category value means earlier delivery. -/
theorem priority_queue_higher_category_first
    (pre mid post : List Message) (m1 m2 : Message)
    (hcat : m1.category < m2.category) :
    (priorityDeliveries (pre ++ m1 :: (mid ++ m2 :: post))).indexOf m2
      < (priorityDeliveries (pre ++ m1 :: (mid ++ m2 :: post))).indexOf m1 := by
  set msgs := pre ++ m1 :: (mid ++ m2 :: post) with hmsgs
  have hm1 : m1 ∈ msgs := by simp [hmsgs]
  have hm2 : m2 ∈ msgs := by simp [hmsgs]
  have hperm := priorityDeliveries_perm msgs
  have h1 : m1 ∈ priorityDeliveries msgs := hperm.mem_iff.mpr hm1
  have h2 : m2 ∈ priorityDeliveries msgs := hperm.mem_iff.mpr hm2
  have hlt : calculatePriority m1 < calculatePriority m2 := by
    simp only [calculatePriority]
    exact_mod_cast hcat
  exact sorted_desc_indexOf_lt (priorityDeliveries_sorted msgs) h1 h2 hlt

/-- Witness for C7 at the spec scenario with categories 1, 5, 3: the
message with category 5 is delivered before the one with category 1. -/
theorem priority_queue_higher_category_first_witness :
    (1 : Nat) < 5
      ∧ (priorityDeliveries
            [⟨1, 1, 0, 0, 0⟩, ⟨5, 1, 0, 0, 0⟩, ⟨3, 1, 0, 0, 0⟩]).indexOf
            ⟨5, 1, 0, 0, 0⟩
          < (priorityDeliveries
            [⟨1, 1, 0, 0, 0⟩, ⟨5, 1, 0, 0, 0⟩, ⟨3, 1, 0, 0, 0⟩]).indexOf
            ⟨1, 1, 0, 0, 0⟩ :=
  ⟨by decide,
    priority_queue_higher_category_first [] [] [⟨3, 1, 0, 0, 0⟩]
      ⟨1, 1, 0, 0, 0⟩ ⟨5, 1, 0, 0, 0⟩ (by decide)⟩

/-! NetService idle sweep (src/network/net_service.cpp, the
implementation the build compiles; include/network/net_service.h holds
the declarations).  A session is summarised by its id, its state machine
state (include/network/net_service.h SessionState) and the value its
getIdleTime() returns at the moment of the sweep. -/

inductive SessionState
  | disconnected
  | connecting
  | connected
  | authenticating
  | authenticated
  | closing
deriving DecidableEq, Repr

structure SessionM where
  sid : Nat
  state : SessionState
  idle_time_ms : Nat
deriving DecidableEq, Repr

/-- NetServiceConfig (include/network/net_service.h lines 96-106). -/
structure NetServiceConfig where
  bind_address : String := "0.0.0.0"
  port : Nat := 0
  max_connections : Nat := 1000
  read_buffer_size : Nat := 8192
  write_buffer_size : Nat := 8192
  idle_timeout_ms : Nat := 60000
  tcp_nodelay : Bool := true
  tcp_keepalive : Bool := true
  reuse_address : Bool := true
deriving DecidableEq, Repr

/-- The loop body filter of checkIdleSessions (net_service.cpp lines
242-255): sessions not in CONNECTED or AUTHENTICATED are skipped, and a
session is collected when its idle time strictly exceeds the configured
timeout. -/
def isIdleCandidate (cfg : NetServiceConfig) (s : SessionM) : Bool :=
  (s.state == SessionState.connected || s.state == SessionState.authenticated)
    && decide (cfg.idle_timeout_ms < s.idle_time_ms)

/-- checkIdleSessions (net_service.cpp lines 222-273): returns early when
idle_timeout_ms is 0 or when the elapsed tick time is below 1000 ms,
otherwise collects the idle sessions into a snapshot vector. -/
def checkIdleSessions (cfg : NetServiceConfig) (elapsed_ms : Nat)
    (sessions : List SessionM) : List SessionM :=
  if cfg.idle_timeout_ms = 0 then []
  else if elapsed_ms < 1000 then []
  else sessions.filter (isIdleCandidate cfg)

inductive NetEvent
  | onIdle (sid : Nat)
  | closed (sid : Nat)
deriving DecidableEq, Repr

/-- The handling loop of checkIdleSessions (net_service.cpp lines
258-269): for each collected session, onSessionIdle fires and then the
session is closed. -/
def idleSweepEvents (cfg : NetServiceConfig) (elapsed_ms : Nat)
    (sessions : List SessionM) : List NetEvent :=
  (checkIdleSessions cfg elapsed_ms sessions).flatMap
    (fun s => [NetEvent.onIdle s.sid, NetEvent.closed s.sid])

/-- C3 -- The idle sweep of a NetService tick: with idle_timeout_ms = 0
the sweep is disabled; a tick with elapsed below 1000 ms sweeps nothing;
otherwise exactly the sessions in state Connected or Authenticated whose
idle time strictly exceeds idle_timeout_ms are evicted, and each of them
receives the on_idle event and the close. -/
theorem netservice_idle_sweep_exact (cfg : NetServiceConfig)
    (elapsed_ms : Nat) (sessions : List SessionM) (s : SessionM) :
    (cfg.idle_timeout_ms = 0 → idleSweepEvents cfg elapsed_ms sessions = [])
      ∧ (elapsed_ms < 1000 → idleSweepEvents cfg elapsed_ms sessions = [])
      ∧ (s ∈ checkIdleSessions cfg elapsed_ms sessions
          ↔ cfg.idle_timeout_ms ≠ 0 ∧ 1000 ≤ elapsed_ms ∧ s ∈ sessions
              ∧ (s.state = SessionState.connected
                  ∨ s.state = SessionState.authenticated)
              ∧ cfg.idle_timeout_ms < s.idle_time_ms)
      ∧ (s ∈ checkIdleSessions cfg elapsed_ms sessions
          → NetEvent.onIdle s.sid ∈ idleSweepEvents cfg elapsed_ms sessions
            ∧ NetEvent.closed s.sid ∈ idleSweepEvents cfg elapsed_ms sessions) := by
  refine ⟨?_, ?_, ?_, ?_⟩
  · intro h; simp [idleSweepEvents, checkIdleSessions, h]
  · intro h
    by_cases h0 : cfg.idle_timeout_ms = 0 <;>
      simp [idleSweepEvents, checkIdleSessions, h, h0]
  · constructor
    · intro hmem
      by_cases h0 : cfg.idle_timeout_ms = 0
      · simp [checkIdleSessions, h0] at hmem
      · by_cases he : elapsed_ms < 1000
        · simp [checkIdleSessions, h0, he] at hmem
        · simp only [checkIdleSessions, h0, he, if_false] at hmem
          have hm := List.mem_filter.mp hmem
          refine ⟨h0, not_lt.mp he, hm.1, ?_, ?_⟩
          · have := hm.2
            simp [isIdleCandidate] at this
            rcases this.1 with h1 | h1
            · exact Or.inl h1
            · exact Or.inr h1
          · have := hm.2
            simp [isIdleCandidate] at this
            exact this.2
    · rintro ⟨h0, he, hmem, hstate, hidle⟩
      have hne : ¬ elapsed_ms < 1000 := not_lt.mpr he
      simp only [checkIdleSessions, h0, hne, if_false]
      refine List.mem_filter.mpr ⟨hmem, ?_⟩
      simp [isIdleCandidate, hidle]
      rcases hstate with h1 | h1
      · exact Or.inl h1
      · exact Or.inr h1
  · intro hmem
    constructor
    · simp only [idleSweepEvents, List.mem_flatMap]
      exact ⟨s, hmem, by simp⟩
    · simp only [idleSweepEvents, List.mem_flatMap]
      exact ⟨s, hmem, by simp⟩

/-- Witness for C3: with a 500 ms timeout and a 1000 ms tick, a connected
session idle for 700 ms is evicted. -/
theorem netservice_idle_sweep_exact_witness :
    (⟨1, SessionState.connected, 700⟩ : SessionM)
        ∈ checkIdleSessions { idle_timeout_ms := 500 } 1000
          [⟨1, SessionState.connected, 700⟩, ⟨2, SessionState.closing, 9999⟩]
      ∧ NetEvent.onIdle 1 ∈ idleSweepEvents { idle_timeout_ms := 500 } 1000
          [⟨1, SessionState.connected, 700⟩, ⟨2, SessionState.closing, 9999⟩] := by
  have hthm := netservice_idle_sweep_exact { idle_timeout_ms := 500 } 1000
    [⟨1, SessionState.connected, 700⟩, ⟨2, SessionState.closing, 9999⟩]
    ⟨1, SessionState.connected, 700⟩
  have hmem := hthm.2.2.1.mpr (by decide)
  exact ⟨hmem, (hthm.2.2.2 hmem).1⟩

/-! BaseService (include/core/service.h, include/next_gen/core/service.h
and src/core/service.cpp).  The two header trees define BaseService
inline; src/core/service.cpp re-defines registerMessageHandler,
registerModule and registerModuleWithName against a missing revision of
the header (it references a handlers mutex and the
HANDLER_ALREADY_REGISTERED and MODULE_ALREADY_REGISTERED codes that no
header in the repository declares).  Where the inline and the cpp
definitions disagree, both are embedded, suffixed hdr and cpp.  A module
is summarised by its name and by the results its init() and start()
return; the lifecycle calls a registration performs are recorded in
order. -/

structure ModuleM where
  name : String
  initError : Option ErrorCode
  startError : Option ErrorCode
deriving DecidableEq, Repr

inductive ModCall
  | initCall (name : String)
  | startCall (name : String)
  | stopCall (name : String)
deriving DecidableEq, Repr

structure BaseServiceState where
  name : String
  running : Bool
  message_queue : DefaultMessageQueue
  message_handlers : List (Nat × Nat)
  modules : List (String × ModuleM)
deriving DecidableEq, Repr

/-- makeHandlerKey (service.h lines 346-348 and service.cpp lines
219-221): u32 key with the category in the high half-word and the id in
the low one. -/
def makeHandlerKey (category mid : Nat) : Nat :=
  (category <<< 16) ||| mid

/-- registerMessageHandler as defined inline in both header trees
(include/next_gen/core/service.h lines 208-215 and include/core/service.h
lines 206-213): store the handler under the key, overwriting any previous
binding, and return success unconditionally. -/
def registerMessageHandler_hdr (s : BaseServiceState) (category mid htag : Nat) :
    BaseServiceState × Option ErrorCode :=
  ({ s with message_handlers :=
      aupdate s.message_handlers (makeHandlerKey category mid) htag }, none)

/-- registerMessageHandler as defined in src/core/service.cpp lines 9-34:
a null handler is rejected, a key that already has a handler is rejected
with HANDLER_ALREADY_REGISTERED, otherwise the handler is stored. -/
def registerMessageHandler_cpp (s : BaseServiceState) (category mid : Nat)
    (handler : Option Nat) : BaseServiceState × Option ErrorCode :=
  match handler with
  | none => (s, some ErrorCode.INVALID_ARGUMENT)
  | some htag =>
      if (alookup s.message_handlers (makeHandlerKey category mid)).isSome then
        (s, some ErrorCode.HANDLER_ALREADY_REGISTERED)
      else
        ({ s with message_handlers :=
            aupdate s.message_handlers (makeHandlerKey category mid) htag }, none)

/-- dispatchMessage (service.h lines 188-203): look the handler up under
the key of the message; invoke it when found, otherwise warn and return
the no-handler error. -/
def dispatchMessage (s : BaseServiceState) (m : Message) :
    Option Nat × Option ErrorCode :=
  match alookup s.message_handlers (makeHandlerKey m.category m.msgId) with
  | some htag => (some htag, none)
  | none => (none, some ErrorCode.MESSAGE_ERROR)

/-- registerModule as defined inline in the header trees
(include/core/service.h lines 227-258; include/next_gen/core/service.h
lines 229-241 is the same logic with MODULE_ALREADY_EXISTS): reject a
null module and a duplicate name, insert into the module map and return;
no lifecycle method of the module is invoked. -/
def registerModule_hdr (s : BaseServiceState) (mo : Option ModuleM) :
    BaseServiceState × Option ErrorCode × List ModCall :=
  match mo with
  | none => (s, some ErrorCode.INVALID_ARGUMENT, [])
  | some m =>
      if (alookup s.modules m.name).isSome then
        (s, some ErrorCode.MODULE_ALREADY_EXISTS, [])
      else
        ({ s with modules := aupdate s.modules m.name m }, none, [])

/-- registerModuleWithName (src/core/service.cpp lines 46-98): reject an
empty name and a null module; reject a duplicate name; insert the module;
call init() and on failure remove it and surface the error; if the
service is running call start() and on failure call stop(), remove it and
surface the error. -/
def registerModuleWithName_cpp (s : BaseServiceState) (nm : String)
    (mo : Option ModuleM) : BaseServiceState × Option ErrorCode × List ModCall :=
  if nm = "" then (s, some ErrorCode.INVALID_ARGUMENT, [])
  else
    match mo with
    | none => (s, some ErrorCode.INVALID_ARGUMENT, [])
    | some m =>
        if (alookup s.modules nm).isSome then
          (s, some ErrorCode.MODULE_ALREADY_REGISTERED, [])
        else
          let s1 := { s with modules := aupdate s.modules nm m }
          match m.initError with
          | some e =>
              ({ s1 with modules := aerase s1.modules nm }, some e,
                [ModCall.initCall nm])
          | none =>
              if s1.running then
                match m.startError with
                | some e =>
                    ({ s1 with modules := aerase s1.modules nm }, some e,
                      [ModCall.initCall nm, ModCall.startCall nm,
                        ModCall.stopCall nm])
                | none =>
                    (s1, none, [ModCall.initCall nm, ModCall.startCall nm])
              else (s1, none, [ModCall.initCall nm])

/-- registerModule (src/core/service.cpp lines 36-44): reject a null
module, then delegate under the module's own name. -/
def registerModule_cpp (s : BaseServiceState) (mo : Option ModuleM) :
    BaseServiceState × Option ErrorCode × List ModCall :=
  match mo with
  | none => (s, some ErrorCode.INVALID_ARGUMENT, [])
  | some m => registerModuleWithName_cpp s m.name (some m)

/-- stop (service.h lines 131-160): a non-running service yields
SERVICE_NOT_STARTED; otherwise the running flag is cleared, the message
queue is shut down, onStop runs and the worker is joined. -/
def BaseServiceState.stop (s : BaseServiceState) :
    BaseServiceState × Option ErrorCode :=
  if s.running = false then (s, some ErrorCode.SERVICE_NOT_STARTED)
  else
    ({ s with running := false, message_queue := s.message_queue.shutdown }, none)

/-- postMessage (service.h lines 171-185): a non-running service yields
SERVICE_NOT_STARTED and the message is not enqueued; otherwise the
timestamp is stamped and the message pushed into the queue. -/
def BaseServiceState.postMessage (s : BaseServiceState) (m : Message)
    (now : Nat) : BaseServiceState × Option ErrorCode :=
  if s.running = false then (s, some ErrorCode.SERVICE_NOT_STARTED)
  else
    let stamped := { m with timestamp := now }
    ({ s with message_queue := (s.message_queue.push stamped).1 }, none)

/-- Steps the service can take after stop(): a client posting a message,
or one iteration of the worker loop (service.h lines 307-343), which
pops at most one message from the queue and hands it to onMessage /
dispatchMessage. -/
inductive ServiceOp
  | postOp (m : Message) (now : Nat)
  | loopIter
deriving DecidableEq, Repr

def serviceStep (op : ServiceOp) (s : BaseServiceState) :
    BaseServiceState × List Message :=
  match op with
  | .postOp m now => ((s.postMessage m now).1, [])
  | .loopIter =>
      let r := s.message_queue.waitAndPop
      match r.2 with
      | none => ({ s with message_queue := r.1 }, [])
      | some msg => ({ s with message_queue := r.1 }, [msg])

/-- Runs a sequence of steps, collecting every message that reaches
onMessage (and hence could reach a handler). -/
def runService : List ServiceOp → BaseServiceState → BaseServiceState × List Message
  | [], s => (s, [])
  | op :: rest, s =>
      let r := serviceStep op s
      let r2 := runService rest r.1
      (r2.1, r.2 ++ r2.2)

theorem serviceStep_stopped (op : ServiceOp) (s : BaseServiceState)
    (h : s.running = false) :
    (serviceStep op s).1.running = false
      ∧ (∀ x ∈ (serviceStep op s).1.message_queue.queue,
          x ∈ s.message_queue.queue)
      ∧ (∀ x ∈ (serviceStep op s).2, x ∈ s.message_queue.queue) := by
  cases op with
  | postOp m now =>
      simp [serviceStep, BaseServiceState.postMessage, h]
  | loopIter =>
      match hq : s.message_queue.queue with
      | [] =>
          refine ⟨?_, ?_, ?_⟩ <;>
            simp [serviceStep, DefaultMessageQueue.waitAndPop, hq, h]
      | m :: rest =>
          refine ⟨?_, ?_, ?_⟩ <;>
            simp [serviceStep, DefaultMessageQueue.waitAndPop, hq, h]
          · intro x hx
            exact Or.inr hx

theorem runService_stopped (ops : List ServiceOp) (s : BaseServiceState)
    (h : s.running = false) (m : Message) (hm : m ∉ s.message_queue.queue) :
    m ∉ (runService ops s).2 := by
  induction ops generalizing s with
  | nil => simp [runService]
  | cons op rest ih =>
      have hstep := serviceStep_stopped op s h
      simp only [runService, List.mem_append]
      rintro (hin | hin)
      · exact hm (hstep.2.2 m hin)
      · have hmq : m ∉ (serviceStep op s).1.message_queue.queue := by
          intro hc; exact hm (hstep.2.1 m hc)
        exact ih (serviceStep op s).1 hstep.1 hmq hin

/-- C6 -- After stop() has returned, the running flag is down, every
subsequent postMessage returns SERVICE_NOT_STARTED without enqueueing the
message, and across any further sequence of posts and worker-loop
iterations a message m that was not already in the queue is never handed
to onMessage, hence no handler observes it. -/
theorem service_post_after_stop_rejected (s : BaseServiceState) (m : Message)
    (now : Nat) (ops : List ServiceOp)
    (hm : m ∉ s.message_queue.queue) :
    (s.stop.1.running = false)
      ∧ (s.stop.1.postMessage m now = (s.stop.1, some ErrorCode.SERVICE_NOT_STARTED))
      ∧ m ∉ (runService ops s.stop.1).2 := by
  have hrun : s.stop.1.running = false := by
    by_cases h : s.running = false <;> simp [BaseServiceState.stop, h]
  have hqueue : s.stop.1.message_queue.queue = s.message_queue.queue := by
    by_cases h : s.running = false <;>
      simp [BaseServiceState.stop, h, DefaultMessageQueue.shutdown]
  refine ⟨hrun, ?_, ?_⟩
  · simp [BaseServiceState.postMessage, hrun]
  · exact runService_stopped ops s.stop.1 hrun m (hqueue ▸ hm)

/-- Witness for C6: a freshly stopped service with an empty queue rejects
a post and never dispatches the posted message. -/
theorem service_post_after_stop_rejected_witness :
    ((⟨1, 2, 0, 0, 7⟩ : Message)
        ∉ (⟨"svc", true, ⟨[], 0, false⟩, [], []⟩ : BaseServiceState).message_queue.queue)
      ∧ (⟨"svc", true, ⟨[], 0, false⟩, [], []⟩ : BaseServiceState).stop.1.postMessage
          ⟨1, 2, 0, 0, 7⟩ 5
          = ((⟨"svc", true, ⟨[], 0, false⟩, [], []⟩ : BaseServiceState).stop.1,
              some ErrorCode.SERVICE_NOT_STARTED) :=
  ⟨by decide,
    (service_post_after_stop_rejected ⟨"svc", true, ⟨[], 0, false⟩, [], []⟩
      ⟨1, 2, 0, 0, 7⟩ 5 [ServiceOp.loopIter] (by decide)).2.1⟩

theorem aerase_aupdate_self {κ α : Type} [DecidableEq κ]
    (l : List (κ × α)) (k : κ) (v : α) (h : alookup l k = none) :
    aerase (aupdate l k v) k = l := by
  induction l with
  | nil => simp [aupdate, aerase]
  | cons hd tl ih =>
      by_cases hh : hd.1 = k
      · simp [alookup, hh] at h
      · simp [alookup, hh] at h
        simp [aupdate, aerase, hh, ih h]

/-- C2 (amended) -- The registerModule chain of src/core/service.cpp:
a null module is rejected; a duplicate name is rejected; otherwise the
module is inserted and init() is called, and on an init error the module
is removed again and the error surfaced; when the service is running,
start() is also called, and on a start error stop() is called, the module
removed, and the error surfaced. -/
theorem register_module_cpp_protocol (s : BaseServiceState) (m : ModuleM)
    (e : ErrorCode) (prev : ModuleM) :
    (registerModule_cpp s none = (s, some ErrorCode.INVALID_ARGUMENT, []))
      ∧ (m.name ≠ "" → alookup s.modules m.name = some prev →
          registerModule_cpp s (some m)
            = (s, some ErrorCode.MODULE_ALREADY_REGISTERED, []))
      ∧ (m.name ≠ "" → alookup s.modules m.name = none → m.initError = some e →
          registerModule_cpp s (some m)
            = (s, some e, [ModCall.initCall m.name]))
      ∧ (m.name ≠ "" → alookup s.modules m.name = none → m.initError = none →
          s.running = false →
          registerModule_cpp s (some m)
            = ({ s with modules := aupdate s.modules m.name m }, none,
                [ModCall.initCall m.name]))
      ∧ (m.name ≠ "" → alookup s.modules m.name = none → m.initError = none →
          s.running = true → m.startError = none →
          registerModule_cpp s (some m)
            = ({ s with modules := aupdate s.modules m.name m }, none,
                [ModCall.initCall m.name, ModCall.startCall m.name]))
      ∧ (m.name ≠ "" → alookup s.modules m.name = none → m.initError = none →
          s.running = true → m.startError = some e →
          registerModule_cpp s (some m)
            = (s, some e, [ModCall.initCall m.name, ModCall.startCall m.name,
                ModCall.stopCall m.name])) := by
  refine ⟨?_, ?_, ?_, ?_, ?_, ?_⟩
  · simp [registerModule_cpp]
  · intro hn hdup
    simp [registerModule_cpp, registerModuleWithName_cpp, hn, hdup]
  · intro hn hnone hinit
    have hid : { s with modules := s.modules } = s := rfl
    simp [registerModule_cpp, registerModuleWithName_cpp, hn, hnone, hinit,
      aerase_aupdate_self s.modules m.name m hnone]
  · intro hn hnone hinit hrun
    simp [registerModule_cpp, registerModuleWithName_cpp, hn, hnone, hinit, hrun]
  · intro hn hnone hinit hrun hstart
    simp [registerModule_cpp, registerModuleWithName_cpp, hn, hnone, hinit,
      hrun, hstart]
  · intro hn hnone hinit hrun hstart
    simp [registerModule_cpp, registerModuleWithName_cpp, hn, hnone, hinit,
      hrun, hstart, aerase_aupdate_self s.modules m.name m hnone]
    rw [← hrun]

/-- Witness for the amended C2 at the start-failure case: a running
service registering a module whose start() fails sees init, start, stop
invoked, the module removed, and the start error surfaced. -/
theorem register_module_cpp_protocol_witness :
    (("m2" : String) ≠ ""
        ∧ alookup ([] : List (String × ModuleM)) "m2" = none)
      ∧ registerModule_cpp ⟨"svc", true, ⟨[], 0, false⟩, [], []⟩
          (some ⟨"m2", none, some ErrorCode.MODULE_ERROR⟩)
        = (⟨"svc", true, ⟨[], 0, false⟩, [], []⟩, some ErrorCode.MODULE_ERROR,
            [ModCall.initCall "m2", ModCall.startCall "m2",
              ModCall.stopCall "m2"]) :=
  ⟨⟨by decide, by decide⟩,
    (register_module_cpp_protocol ⟨"svc", true, ⟨[], 0, false⟩, [], []⟩
        ⟨"m2", none, some ErrorCode.MODULE_ERROR⟩ ErrorCode.MODULE_ERROR
        ⟨"m2", none, none⟩).2.2.2.2.2
      (by decide) (by decide) (by decide) (by decide) (by decide)⟩

/-- Counterexample for C2 as stated: against the header-inline
registerModule (the code the claim cites), a module whose init() fails is
nevertheless registered with success, stays in the module map, and no
lifecycle call is made at all, contradicting steps 3 and 4 of the claim. -/
theorem register_module_hdr_skips_init_counterexample :
    (⟨"m1", some ErrorCode.MODULE_ERROR, none⟩ : ModuleM).initError
        = some ErrorCode.MODULE_ERROR
      ∧ (registerModule_hdr ⟨"svc", true, ⟨[], 0, false⟩, [], []⟩
            (some ⟨"m1", some ErrorCode.MODULE_ERROR, none⟩)).2.1 = none
      ∧ alookup (registerModule_hdr ⟨"svc", true, ⟨[], 0, false⟩, [], []⟩
            (some ⟨"m1", some ErrorCode.MODULE_ERROR, none⟩)).1.modules "m1"
          = some ⟨"m1", some ErrorCode.MODULE_ERROR, none⟩
      ∧ (registerModule_hdr ⟨"svc", true, ⟨[], 0, false⟩, [], []⟩
            (some ⟨"m1", some ErrorCode.MODULE_ERROR, none⟩)).2.2 = [] := by
  refine ⟨rfl, ?_, ?_, ?_⟩ <;> decide

/-- C10 (amended) -- The header-inline registerMessageHandler always
returns success; registering a second handler for the same
(category, id) silently replaces the first, and dispatch for that key
invokes only the most recently registered handler. -/
theorem register_handler_hdr_replaces (s : BaseServiceState)
    (category mid h1 h2 sid ts pl : Nat) :
    ((registerMessageHandler_hdr s category mid h1).2 = none)
      ∧ ((registerMessageHandler_hdr
            (registerMessageHandler_hdr s category mid h1).1 category mid h2).2
          = none)
      ∧ dispatchMessage
          (registerMessageHandler_hdr
            (registerMessageHandler_hdr s category mid h1).1 category mid h2).1
          ⟨category, mid, sid, ts, pl⟩
          = (some h2, none) := by
  refine ⟨rfl, rfl, ?_⟩
  simp [dispatchMessage, registerMessageHandler_hdr, alookup_aupdate_self]

/-- Counterexample for C10 as stated: BaseService::registerMessageHandler
in src/core/service.cpp rejects a duplicate (category, id) with
HANDLER_ALREADY_REGISTERED and keeps the first handler, so registration
does not always succeed and a HandlerAlreadyRegistered-style error is
produced. -/
theorem register_handler_cpp_rejects_duplicate_counterexample :
    ((registerMessageHandler_cpp ⟨"svc", false, ⟨[], 0, false⟩, [], []⟩
          1 1 (some 10)).2 = none)
      ∧ ((registerMessageHandler_cpp
            (registerMessageHandler_cpp ⟨"svc", false, ⟨[], 0, false⟩, [], []⟩
              1 1 (some 10)).1 1 1 (some 20)).2
          = some ErrorCode.HANDLER_ALREADY_REGISTERED)
      ∧ alookup (registerMessageHandler_cpp
            (registerMessageHandler_cpp ⟨"svc", false, ⟨[], 0, false⟩, [], []⟩
              1 1 (some 10)).1 1 1 (some 20)).1.message_handlers
            (makeHandlerKey 1 1)
          = some 10 := by
  refine ⟨?_, ?_, ?_⟩ <;> decide

/-! TcpSession read pipeline (src/network/tcp_session.cpp).  The 7-byte
header holds the u8 category, the little-endian u16 id and the
little-endian u32 body_size (HEADER_SIZE at line 12, field extraction in
handleReadHeader lines 266-274). -/

/-- Little-endian decoding of the 7 header bytes into
(category, id, body_size), as the three memcpy calls of handleReadHeader
perform it. -/
def parseHeader (b : List Nat) : Nat × Nat × Nat :=
  (b.getD 0 0,
    b.getD 1 0 + 256 * b.getD 2 0,
    b.getD 3 0 + 256 * b.getD 4 0 + 65536 * b.getD 5 0 + 16777216 * b.getD 6 0)

/-- What the session does next after a completed header read. -/
inductive ReadStep
  | readBody (body_size : Nat)
  | deliverAndContinue (category mid : Nat)
  | invalidMessageContinue (category mid : Nat)
  | errorClose (e : ErrorCode)
deriving DecidableEq, Repr

/-- handleReadHeader (tcp_session.cpp lines 254-301): on a transport
error the session reports NETWORK_ERROR and closes; otherwise the header
fields are decoded and, whenever body_size is positive, readBody is
invoked with that size unconditionally — the function performs no
comparison of body_size against any limit; with body_size zero the
message is built from the factory (parameter factoryHas) and either
delivered or reported as INVALID_MESSAGE, reading continuing in both
cases. -/
def handleReadHeader (factoryHas : Nat → Nat → Bool) (readError : Bool)
    (hdr : List Nat) : ReadStep :=
  if readError then ReadStep.errorClose ErrorCode.NETWORK_ERROR
  else
    let fields := parseHeader hdr
    if 0 < fields.2.2 then ReadStep.readBody fields.2.2
    else if factoryHas fields.1 fields.2.1 then
      ReadStep.deliverAndContinue fields.1 fields.2.1
    else ReadStep.invalidMessageContinue fields.1 fields.2.1

/-- The buffer size readBody (tcp_session.cpp lines 220-234) resizes the
read buffer to before issuing the body read. -/
def readBodyBufferSize (body_size : Nat) : Nat :=
  7 + body_size

/-- C1 -- For every successfully read header whose body_size exceeds
config.read_buffer_size, handleReadHeader nevertheless proceeds straight
to reading the body of that size (resizing the buffer to 7 + body_size):
no MessageTooLarge error is produced and the session is not closed.
This refutes the claimed size check; see the code_bug record. -/
theorem tcp_oversized_body_still_read (cfg : NetServiceConfig)
    (factoryHas : Nat → Nat → Bool) (hdr : List Nat)
    (hover : cfg.read_buffer_size < (parseHeader hdr).2.2) :
    handleReadHeader factoryHas false hdr
        = ReadStep.readBody (parseHeader hdr).2.2
      ∧ handleReadHeader factoryHas false hdr
          ≠ ReadStep.errorClose ErrorCode.MESSAGE_TOO_LARGE
      ∧ readBodyBufferSize (parseHeader hdr).2.2 = 7 + (parseHeader hdr).2.2 := by
  have hpos : 0 < (parseHeader hdr).2.2 := Nat.lt_of_le_of_lt (Nat.zero_le _) hover
  refine ⟨?_, ?_, rfl⟩
  · simp [handleReadHeader, hpos]
  · simp [handleReadHeader, hpos]

/-- Witness for C1 at the failing input: the header bytes
01 01 00 28 23 00 00 decode to category 1, id 1, body_size 9000; with the
default read_buffer_size of 8192 the session still issues a 9000-byte
body read. -/
theorem tcp_oversized_body_still_read_witness :
    ((8192 : Nat) < 9000
        ∧ parseHeader [1, 1, 0, 40, 35, 0, 0] = (1, 1, 9000))
      ∧ handleReadHeader (fun _ _ => false) false [1, 1, 0, 40, 35, 0, 0]
          = ReadStep.readBody 9000 :=
  ⟨⟨by decide, by decide⟩,
    (tcp_oversized_body_still_read { } (fun _ _ => false)
      [1, 1, 0, 40, 35, 0, 0] (by decide)).1⟩

/-! TimerManager (include/utils/timer.h declarations; two built
implementation files: src/utils/timer.cpp, called the timer-cpp variant
below, and src/utils/timer_manager.cpp, the timer-manager-cpp variant;
the two define the same symbols with diverging bodies).  State: the
TimerId-to-TimerTask map, the priority-queue contents keyed by next_run,
the TimerGroupId-to-member-vector map, the reverse TimerId-to-group map
and the id generators.  Callbacks are identified by the owning timer id;
the worker reports the id of the callback it invokes. -/

structure TimerTask where
  tid : Nat
  next_run : Nat
  interval : Nat
  repeatFlag : Bool
deriving DecidableEq, Repr

structure TimerManagerState where
  tasks : List (Nat × TimerTask)
  queue : List TimerTask
  groups : List (Nat × List Nat)
  timer_to_group : List (Nat × Nat)
  next_id : Nat
  next_group_id : Nat
deriving DecidableEq, Repr

/-- rebuildQueue (timer.cpp lines 146-155): the heap is discarded and
refilled from the task map. -/
def rebuildQueue (s : TimerManagerState) : TimerManagerState :=
  { s with queue := s.tasks.map (fun p => p.2) }

/-- Selects the element the min-heap (ordered by the greater-than
comparator on next_run) exposes as top(): an element with minimal
next_run, together with the remaining contents.  Ties are unspecified in
the source; the model commits to the first-pushed minimal element. -/
def queueMin : List TimerTask → Option (TimerTask × List TimerTask)
  | [] => none
  | x :: xs =>
      match queueMin xs with
      | none => some (x, [])
      | some (y, rest) =>
          if y.next_run < x.next_run then some (y, x :: rest) else some (x, xs)

/-- cancel in the timer-cpp variant (timer.cpp lines 52-73): an unknown
id returns false; otherwise the id is removed from its group vector and
the reverse map (the group is kept even when it became empty), erased
from the task map, and the heap is rebuilt. -/
def cancel_timer_cpp (s : TimerManagerState) (tid : Nat) :
    TimerManagerState × Bool :=
  match alookup s.tasks tid with
  | none => (s, false)
  | some _ =>
      let s1 :=
        match alookup s.timer_to_group tid with
        | none => s
        | some gid =>
            { s with
              groups := aupdate s.groups gid
                (((alookup s.groups gid).getD []).filter (fun t => t ≠ tid)),
              timer_to_group := aerase s.timer_to_group tid }
      let s2 := { s1 with tasks := aerase s1.tasks tid }
      (rebuildQueue s2, true)

/-- cancel in the timer-manager-cpp variant (timer_manager.cpp lines
463-495): id 0 and unknown ids return false; the id is erased from the
task map and from its group, and a group whose member vector became
empty is erased; the heap entry is left to be skipped lazily. -/
def cancel_timer_manager_cpp (s : TimerManagerState) (tid : Nat) :
    TimerManagerState × Bool :=
  if tid = 0 then (s, false)
  else
    match alookup s.tasks tid with
    | none => (s, false)
    | some _ =>
        let s1 := { s with tasks := aerase s.tasks tid }
        let s2 :=
          match alookup s1.timer_to_group tid with
          | none => s1
          | some gid =>
              let members :=
                ((alookup s1.groups gid).getD []).filter (fun t => t ≠ tid)
              { s1 with
                timer_to_group := aerase s1.timer_to_group tid,
                groups := if members.isEmpty then aerase s1.groups gid
                          else aupdate s1.groups gid members }
        (s2, true)

/-- createGroup (timer.cpp lines 254-262): allocates the next non-zero
group id and installs an empty member vector. -/
def createGroup (s : TimerManagerState) : TimerManagerState × Nat :=
  let gid := if s.next_group_id = 0 then s.next_group_id + 1 else s.next_group_id
  ({ s with groups := aupdate s.groups gid [], next_group_id := gid + 1 }, gid)

/-- addToGroup in the timer-cpp variant (timer.cpp lines 264-292): fails
for an unknown timer or group; a timer recorded in a different group is
first filtered out of that group's vector (the old group is kept even if
emptied); then the reverse map is pointed at the new group and the id is
appended to its vector. -/
def addToGroup_timer_cpp (s : TimerManagerState) (gid tid : Nat) :
    TimerManagerState × Bool :=
  if (alookup s.tasks tid).isNone then (s, false)
  else
    match alookup s.groups gid with
    | none => (s, false)
    | some gmembers =>
        let s1 :=
          match alookup s.timer_to_group tid with
          | some old =>
              if old ≠ gid then
                { s with
                  groups := aupdate s.groups old
                    (((alookup s.groups old).getD []).filter (fun t => t ≠ tid)) }
              else s
          | none => s
        ({ s1 with
            timer_to_group := aupdate s1.timer_to_group tid gid,
            groups := aupdate s1.groups gid (gmembers ++ [tid]) }, true)

/-- removeFromGroup in the timer-manager-cpp variant (timer_manager.cpp
lines 706-734): fails when the timer is not recorded in that exact
group; removes it from the vector and the reverse map, erasing the group
when its vector became empty. -/
def removeFromGroup (s : TimerManagerState) (gid tid : Nat) :
    TimerManagerState × Bool :=
  if gid = 0 ∨ tid = 0 then (s, false)
  else
    match alookup s.timer_to_group tid with
    | none => (s, false)
    | some g =>
        if g ≠ gid then (s, false)
        else
          let s1 :=
            match alookup s.groups gid with
            | none => s
            | some members =>
                let members2 := members.filter (fun t => t ≠ tid)
                { s with
                  groups := if members2.isEmpty then aerase s.groups gid
                            else aupdate s.groups gid members2 }
          ({ s1 with timer_to_group := aerase s1.timer_to_group tid }, true)

/-- cancelGroup (timer_manager.cpp lines 736-758; timer.cpp lines
311-333 are the same without the id-0 guard): erases every member of
the group from the task map and the reverse map, erases the group
itself, and rebuilds the heap. -/
def cancelGroup (s : TimerManagerState) (gid : Nat) :
    TimerManagerState × Bool :=
  if gid = 0 then (s, false)
  else
    match alookup s.groups gid with
    | none => (s, false)
    | some members =>
        let s1 := { s with
          tasks := members.foldl (fun acc t => aerase acc t) s.tasks,
          timer_to_group :=
            members.foldl (fun acc t => aerase acc t) s.timer_to_group }
        let s2 := { s1 with groups := aerase s1.groups gid }
        (rebuildQueue s2, true)

/-- One due-task iteration of the worker in the timer-cpp variant
(timer.cpp run, lines 162-251): the heap head is popped once due; if its
id is no longer in the task map the iteration restarts without firing;
a repeating task with positive interval is rescheduled at now + interval
and its callback fired; a one-shot task is removed from its group (the
group being erased when emptied, lines 220-232), erased from the map,
and its callback fired.  The returned option is the id of the callback
invoked by this iteration, none when nothing fired. -/
def workerStep (now : Nat) (s : TimerManagerState) :
    TimerManagerState × Option Nat :=
  match queueMin s.queue with
  | none => (s, none)
  | some (t, rest) =>
      if now < t.next_run then (s, none)
      else
        let s1 := { s with queue := rest }
        match alookup s1.tasks t.tid with
        | none => (s1, none)
        | some _ =>
            if t.repeatFlag ∧ 0 < t.interval then
              let t2 := { t with next_run := now + t.interval }
              ({ s1 with tasks := aupdate s1.tasks t.tid t2,
                         queue := s1.queue ++ [t2] }, some t.tid)
            else
              let s2 :=
                match alookup s1.timer_to_group t.tid with
                | none => s1
                | some gid =>
                    let members :=
                      ((alookup s1.groups gid).getD []).filter
                        (fun x => x ≠ t.tid)
                    { s1 with
                      timer_to_group := aerase s1.timer_to_group t.tid,
                      groups := if members.isEmpty then aerase s1.groups gid
                                else aupdate s1.groups gid members }
              ({ s2 with tasks := aerase s2.tasks t.tid }, some t.tid)

theorem queueMin_mem {l : List TimerTask} {t : TimerTask} {rest : List TimerTask}
    (h : queueMin l = some (t, rest)) : t ∈ l := by
  induction l generalizing t rest with
  | nil => simp [queueMin] at h
  | cons x xs ih =>
      simp only [queueMin] at h
      split at h
      · injection h with h
        injection h with h1 h2
        subst h1
        exact List.mem_cons_self _ _
      · rename_i y rest' hx
        split at h
        · injection h with h
          injection h with h1 h2
          subst h1
          exact List.mem_cons_of_mem _ (ih hx)
        · injection h with h
          injection h with h1 h2
          subst h1
          exact List.mem_cons_self _ _

theorem mem_aerase {κ α : Type} [DecidableEq κ] {l : List (κ × α)}
    {k : κ} {p : κ × α} (h : p ∈ aerase l k) : p ∈ l ∧ p.1 ≠ k := by
  induction l with
  | nil => simp [aerase] at h
  | cons hd tl ih =>
      by_cases hh : hd.1 = k
      · simp only [aerase, hh, if_true] at h
        exact ⟨List.mem_cons_of_mem _ (ih h).1, (ih h).2⟩
      · simp only [aerase, hh, if_false, List.mem_cons] at h
        rcases h with h | h
        · subst h
          exact ⟨List.mem_cons_self _ _, hh⟩
        · exact ⟨List.mem_cons_of_mem _ (ih h).1, (ih h).2⟩

theorem workerStep_fired {now : Nat} {s : TimerManagerState} {fid : Nat}
    (h : (workerStep now s).2 = some fid) :
    ∃ t rest, queueMin s.queue = some (t, rest) ∧ t.tid = fid
      ∧ (alookup s.tasks t.tid).isSome := by
  unfold workerStep at h
  cases hq : queueMin s.queue with
  | none => rw [hq] at h; simp at h
  | some p =>
      rcases p with ⟨t, rest⟩
      rw [hq] at h
      by_cases hdue : now < t.next_run
      · simp [hdue] at h
      · simp only [hdue, if_false] at h
        cases hl : alookup s.tasks t.tid with
        | none => rw [hl] at h; simp at h
        | some tk =>
            rw [hl] at h
            refine ⟨t, rest, rfl, ?_, by simp [hl]⟩
            by_cases hrep : t.repeatFlag ∧ 0 < t.interval
            · simp [hrep] at h; exact h
            · simp [hrep] at h; exact h

theorem workerStep_cancelled_restarts (s2 : TimerManagerState)
    (t : TimerTask) (rest : List TimerTask) (now2 : Nat)
    (hq : queueMin s2.queue = some (t, rest)) (hdue : ¬ now2 < t.next_run)
    (hgone : alookup s2.tasks t.tid = none) :
    workerStep now2 s2 = ({ s2 with queue := rest }, none) := by
  unfold workerStep
  rw [hq]
  simp [hdue, hgone]

/-- C4 -- In the timer-cpp variant: after cancel(id) returns true, the id
is gone from the task map and (because cancel rebuilds the heap from the
map) from the heap, so the worker never fires that callback again; in
general the worker, after popping the heap head, fires the callback only
if the id is still present in the task map (any fired id was present),
and when the id has been cancelled it restarts the loop without firing,
leaving only the pop of the stale heap entry. -/
theorem timer_cancel_prevents_firing (s : TimerManagerState) (tid now : Nat)
    (hwf : ∀ p ∈ s.tasks, (p : Nat × TimerTask).2.tid = p.1)
    (hc : (cancel_timer_cpp s tid).2 = true) :
    alookup (cancel_timer_cpp s tid).1.tasks tid = none
      ∧ (∀ t ∈ (cancel_timer_cpp s tid).1.queue, t.tid ≠ tid)
      ∧ (workerStep now (cancel_timer_cpp s tid).1).2 ≠ some tid
      ∧ (∀ (s2 : TimerManagerState) (t : TimerTask) rest now2,
          queueMin s2.queue = some (t, rest) → ¬ now2 < t.next_run →
          alookup s2.tasks t.tid = none →
          workerStep now2 s2 = ({ s2 with queue := rest }, none))
      ∧ (∀ (s2 : TimerManagerState) now2 fid,
          (workerStep now2 s2).2 = some fid → (alookup s2.tasks fid).isSome) := by
  cases hq : alookup s.tasks tid with
  | none => rw [cancel_timer_cpp, hq] at hc; simp at hc
  | some tk =>
      have htasks : (cancel_timer_cpp s tid).1.tasks = aerase s.tasks tid := by
        cases hg : alookup s.timer_to_group tid <;>
          simp [cancel_timer_cpp, hq, hg, rebuildQueue]
      have hqueue : (cancel_timer_cpp s tid).1.queue
          = (aerase s.tasks tid).map (fun p => p.2) := by
        cases hg : alookup s.timer_to_group tid <;>
          simp [cancel_timer_cpp, hq, hg, rebuildQueue]
      have hb : ∀ t ∈ (cancel_timer_cpp s tid).1.queue, t.tid ≠ tid := by
        intro t ht
        rw [hqueue] at ht
        rcases List.mem_map.mp ht with ⟨p, hp, hpt⟩
        have hm := mem_aerase hp
        have := hwf p hm.1
        rw [← hpt, this]
        exact hm.2
      refine ⟨?_, hb, ?_, ?_, ?_⟩
      · rw [htasks]; exact alookup_aerase_self s.tasks tid
      · intro hfired
        rcases workerStep_fired hfired with ⟨t, rest, hqm, htid, _⟩
        exact hb t (queueMin_mem hqm) htid
      · intro s2 t rest now2 hqm hdue hgone
        exact workerStep_cancelled_restarts s2 t rest now2 hqm hdue hgone
      · intro s2 now2 fid hf
        rcases workerStep_fired hf with ⟨t, rest, _, htid, hsome⟩
        rw [← htid]
        exact hsome

/-- Witness for C4: cancelling the only timer (id 7) empties the map and
the heap, and a worker step at its due time fires nothing. -/
theorem timer_cancel_prevents_firing_witness :
    ((∀ p ∈ [((7 : Nat), (⟨7, 10, 0, false⟩ : TimerTask))],
          (p : Nat × TimerTask).2.tid = p.1)
        ∧ (cancel_timer_cpp ⟨[(7, ⟨7, 10, 0, false⟩)], [⟨7, 10, 0, false⟩],
              [], [], 8, 1⟩ 7).2 = true)
      ∧ alookup (cancel_timer_cpp ⟨[(7, ⟨7, 10, 0, false⟩)],
            [⟨7, 10, 0, false⟩], [], [], 8, 1⟩ 7).1.tasks 7 = none :=
  ⟨⟨by decide, by decide⟩,
    (timer_cancel_prevents_firing ⟨[(7, ⟨7, 10, 0, false⟩)],
        [⟨7, 10, 0, false⟩], [], [], 8, 1⟩ 7 10 (by decide) (by decide)).1⟩

/-! Group bookkeeping invariant: whenever a timer id sits in the member
vector of a group, the reverse map records exactly that group.  This is
the working invariant the TimerManager code maintains, and it implies
the claimed property that a TimerId belongs to at most one group. -/

def consistentMaps (groups : List (Nat × List Nat)) (t2g : List (Nat × Nat)) : Prop :=
  ∀ tid gid ms, alookup groups gid = some ms → tid ∈ ms →
    alookup t2g tid = some gid

def GroupsConsistent (s : TimerManagerState) : Prop :=
  consistentMaps s.groups s.timer_to_group

theorem consistentMaps_atMostOne {groups : List (Nat × List Nat)}
    {t2g : List (Nat × Nat)} (h : consistentMaps groups t2g)
    (t1 g1 g2 : Nat) (ms1 ms2 : List Nat)
    (hg1 : alookup groups g1 = some ms1) (hm1 : t1 ∈ ms1)
    (hg2 : alookup groups g2 = some ms2) (hm2 : t1 ∈ ms2) : g1 = g2 := by
  have e1 := h t1 g1 ms1 hg1 hm1
  have e2 := h t1 g2 ms2 hg2 hm2
  rw [e1] at e2
  injection e2

theorem alookup_foldl_aerase {κ α : Type} [DecidableEq κ]
    (ks : List κ) (l : List (κ × α)) (k : κ) :
    alookup (ks.foldl (fun acc t => aerase acc t) l) k
      = if k ∈ ks then none else alookup l k := by
  induction ks generalizing l with
  | nil => simp
  | cons k0 ks ih =>
      simp only [List.foldl_cons]
      rw [ih (aerase l k0)]
      by_cases hks : k ∈ ks
      · simp [hks]
      · by_cases hk0 : k = k0
        · subst hk0
          simp [hks, alookup_aerase_self]
        · have : k ∉ (k0 :: ks) := by
            simp [hk0, hks]
          simp [hks, this, alookup_aerase_ne l k0 k (fun hc => hk0 (hc.symm ▸ rfl))]

theorem consistentMaps_remove_update {groups : List (Nat × List Nat)}
    {t2g : List (Nat × Nat)} (tid gid0 : Nat)
    (h : consistentMaps groups t2g)
    (hrec : alookup t2g tid = some gid0) :
    consistentMaps
      (aupdate groups gid0
        (((alookup groups gid0).getD []).filter (fun x => x ≠ tid)))
      (aerase t2g tid) := by
  intro t1 g1 ms1 hg1 hm1
  by_cases hgg : gid0 = g1
  · subst hgg
    rw [alookup_aupdate_self] at hg1
    injection hg1 with hg1
    subst hg1
    have hm := List.mem_filter.mp hm1
    have hne : t1 ≠ tid := by
      have := hm.2
      simpa using this
    cases hbase : alookup groups gid0 with
    | none => rw [hbase] at hm; simp at hm
    | some msb =>
        rw [hbase] at hm
        have := h t1 gid0 msb hbase (by simpa using hm.1)
        rw [alookup_aerase_ne t2g tid t1 (fun hc => hne (hc ▸ rfl))]
        exact this
  · rw [alookup_aupdate_ne _ _ _ _ hgg] at hg1
    have hrec1 := h t1 g1 ms1 hg1 hm1
    have hne : t1 ≠ tid := by
      intro hc
      subst hc
      rw [hrec1] at hrec
      injection hrec with hrec
      exact hgg hrec.symm
    rw [alookup_aerase_ne t2g tid t1 (fun hc => hne (hc ▸ rfl))]
    exact hrec1

theorem consistentMaps_remove_cond {groups : List (Nat × List Nat)}
    {t2g : List (Nat × Nat)} (tid gid0 : Nat)
    (h : consistentMaps groups t2g)
    (hrec : alookup t2g tid = some gid0) :
    consistentMaps
      (if (((alookup groups gid0).getD []).filter (fun x => x ≠ tid)).isEmpty
        then aerase groups gid0
        else aupdate groups gid0
          (((alookup groups gid0).getD []).filter (fun x => x ≠ tid)))
      (aerase t2g tid) := by
  by_cases hemp :
      (((alookup groups gid0).getD []).filter (fun x => x ≠ tid)).isEmpty
  · rw [if_pos hemp]
    intro t1 g1 ms1 hg1 hm1
    by_cases hgg : gid0 = g1
    · subst hgg
      rw [alookup_aerase_self] at hg1
      exact absurd hg1 (by simp)
    · rw [alookup_aerase_ne _ _ _ hgg] at hg1
      have hrec1 := h t1 g1 ms1 hg1 hm1
      have hne : t1 ≠ tid := by
        intro hc
        subst hc
        rw [hrec1] at hrec
        injection hrec with hrec
        exact hgg hrec.symm
      rw [alookup_aerase_ne t2g tid t1 (fun hc => hne (hc ▸ rfl))]
      exact hrec1
  · rw [if_neg hemp]
    exact consistentMaps_remove_update tid gid0 h hrec

theorem consistentMaps_erase_t2g_of_no_group {groups : List (Nat × List Nat)}
    {t2g : List (Nat × Nat)} (tid gid0 : Nat)
    (h : consistentMaps groups t2g)
    (hrec : alookup t2g tid = some gid0)
    (hnog : alookup groups gid0 = none) :
    consistentMaps groups (aerase t2g tid) := by
  intro t1 g1 ms1 hg1 hm1
  have hrec1 := h t1 g1 ms1 hg1 hm1
  have hne : t1 ≠ tid := by
    intro hc
    subst hc
    rw [hrec1] at hrec
    injection hrec with hrec
    subst hrec
    rw [hg1] at hnog
    exact absurd hnog (by simp)
  rw [alookup_aerase_ne t2g tid t1 (fun hc => hne (hc ▸ rfl))]
  exact hrec1

theorem consistentMaps_bulk_erase {groups : List (Nat × List Nat)}
    {t2g : List (Nat × Nat)} (gid : Nat) (members : List Nat)
    (h : consistentMaps groups t2g)
    (hg : alookup groups gid = some members) :
    consistentMaps (aerase groups gid)
      (members.foldl (fun acc t => aerase acc t) t2g) := by
  intro t1 g1 ms1 hg1 hm1
  by_cases hgg : gid = g1
  · subst hgg
    rw [alookup_aerase_self] at hg1
    exact absurd hg1 (by simp)
  · rw [alookup_aerase_ne _ _ _ hgg] at hg1
    have hrec1 := h t1 g1 ms1 hg1 hm1
    have hnm : t1 ∉ members := by
      intro hc
      have := h t1 gid members hg hc
      rw [hrec1] at this
      injection this with this
      exact hgg this.symm
    rw [alookup_foldl_aerase members t2g t1, if_neg hnm]
    exact hrec1

theorem consistentMaps_new_group {g : List (Nat × List Nat)}
    {t2g : List (Nat × Nat)} (ng : Nat) (h : consistentMaps g t2g) :
    consistentMaps (aupdate g ng []) t2g := by
  intro t1 g1 ms1 hg1 hm1
  by_cases hgg : ng = g1
  · subst hgg
    rw [alookup_aupdate_self] at hg1
    injection hg1 with e
    subst e
    simp at hm1
  · rw [alookup_aupdate_ne _ _ _ _ hgg] at hg1
    exact h _ _ _ hg1 hm1

theorem consistentMaps_filter_member {g : List (Nat × List Nat)}
    {t2g : List (Nat × Nat)} (old tid : Nat) (h : consistentMaps g t2g) :
    consistentMaps
      (aupdate g old (((alookup g old).getD []).filter (fun x => x ≠ tid)))
      t2g := by
  intro t1 g1 ms1 hg1 hm1
  by_cases hgg : old = g1
  · subst hgg
    rw [alookup_aupdate_self] at hg1
    injection hg1 with e
    subst e
    have hm := List.mem_filter.mp hm1
    cases hbase : alookup g old with
    | none => rw [hbase] at hm; simp at hm
    | some msb =>
        rw [hbase] at hm
        exact h t1 old msb hbase (by simpa using hm.1)
  · rw [alookup_aupdate_ne _ _ _ _ hgg] at hg1
    exact h _ _ _ hg1 hm1

theorem consistentMaps_add_final {g : List (Nat × List Nat)}
    {t2g : List (Nat × Nat)} (gid tid : Nat) (gmembers : List Nat)
    (h : consistentMaps g t2g)
    (hmem : ∀ t1 ∈ gmembers, t1 ≠ tid → alookup t2g t1 = some gid)
    (hnot : ∀ g1 ms1, g1 ≠ gid → alookup g g1 = some ms1 → tid ∉ ms1) :
    consistentMaps (aupdate g gid (gmembers ++ [tid]))
      (aupdate t2g tid gid) := by
  intro t1 g1 ms1 hg1 hm1
  by_cases hgg : gid = g1
  · subst hgg
    rw [alookup_aupdate_self] at hg1
    injection hg1 with e
    subst e
    by_cases ht : t1 = tid
    · subst ht
      rw [alookup_aupdate_self]
    · have hmm : t1 ∈ gmembers := by
        rcases List.mem_append.mp hm1 with hx | hx
        · exact hx
        · simp at hx; exact absurd hx ht
      rw [alookup_aupdate_ne _ _ _ _ (fun hc => ht hc.symm)]
      exact hmem t1 hmm ht
  · rw [alookup_aupdate_ne _ _ _ _ hgg] at hg1
    by_cases ht : t1 = tid
    · subst ht
      exact absurd hm1 (hnot g1 ms1 (fun hc => hgg hc.symm) hg1)
    · rw [alookup_aupdate_ne _ _ _ _ (fun hc => ht hc.symm)]
      exact h _ _ _ hg1 hm1

theorem createGroup_consistent (s : TimerManagerState)
    (h : GroupsConsistent s) : GroupsConsistent (createGroup s).1 := by
  unfold GroupsConsistent at *
  simp only [createGroup]
  exact consistentMaps_new_group _ h

theorem cancel_timer_cpp_consistent (s : TimerManagerState) (tid : Nat)
    (h : GroupsConsistent s) : GroupsConsistent (cancel_timer_cpp s tid).1 := by
  unfold GroupsConsistent at *
  cases hq : alookup s.tasks tid with
  | none => simp only [cancel_timer_cpp, hq]; exact h
  | some tk =>
      cases hg : alookup s.timer_to_group tid with
      | none =>
          simp only [cancel_timer_cpp, hq, hg, rebuildQueue]
          exact h
      | some gid0 =>
          simp only [cancel_timer_cpp, hq, hg, rebuildQueue]
          exact consistentMaps_remove_update tid gid0 h hg

theorem cancel_timer_manager_cpp_consistent (s : TimerManagerState) (tid : Nat)
    (h : GroupsConsistent s) :
    GroupsConsistent (cancel_timer_manager_cpp s tid).1 := by
  unfold GroupsConsistent at *
  by_cases h0 : tid = 0
  · simp only [cancel_timer_manager_cpp, h0, if_true]; exact h
  · cases hq : alookup s.tasks tid with
    | none => simp only [cancel_timer_manager_cpp, h0, if_false, hq]; exact h
    | some tk =>
        cases hg : alookup s.timer_to_group tid with
        | none =>
            simp only [cancel_timer_manager_cpp, h0, if_false, hq, hg]
            exact h
        | some gid0 =>
            simp only [cancel_timer_manager_cpp, h0, if_false, hq, hg]
            exact consistentMaps_remove_cond tid gid0 h hg

theorem removeFromGroup_consistent (s : TimerManagerState) (gid tid : Nat)
    (h : GroupsConsistent s) : GroupsConsistent (removeFromGroup s gid tid).1 := by
  unfold GroupsConsistent at *
  by_cases h0 : gid = 0 ∨ tid = 0
  · simp only [removeFromGroup, h0, if_true]; exact h
  · cases hg : alookup s.timer_to_group tid with
    | none => simp only [removeFromGroup, h0, if_false, hg]; exact h
    | some g =>
        by_cases hgg : g ≠ gid
        · simp only [removeFromGroup, h0, if_false, hg]
          rw [if_pos hgg]
          exact h
        · push_neg at hgg
          subst hgg
          cases hm : alookup s.groups g with
          | none =>
              simp only [removeFromGroup, h0, if_false, hg, hm]
              have hcond : ¬ (g ≠ g) := fun hc => hc rfl
              rw [if_neg hcond]
              exact consistentMaps_erase_t2g_of_no_group tid g h hg hm
          | some members =>
              simp only [removeFromGroup, h0, if_false, hg, hm]
              have hcond : ¬ (g ≠ g) := fun hc => hc rfl
              rw [if_neg hcond]
              have := consistentMaps_remove_cond tid g h hg
              rw [hm] at this
              simpa using this

theorem cancelGroup_consistent (s : TimerManagerState) (gid : Nat)
    (h : GroupsConsistent s) : GroupsConsistent (cancelGroup s gid).1 := by
  unfold GroupsConsistent at *
  by_cases h0 : gid = 0
  · simp only [cancelGroup, h0, if_true]; exact h
  · cases hg : alookup s.groups gid with
    | none => simp only [cancelGroup, h0, if_false, hg]; exact h
    | some members =>
        simp only [cancelGroup, h0, if_false, hg, rebuildQueue]
        exact consistentMaps_bulk_erase gid members h hg

theorem addToGroup_timer_cpp_consistent (s : TimerManagerState) (gid tid : Nat)
    (h : GroupsConsistent s) :
    GroupsConsistent (addToGroup_timer_cpp s gid tid).1 := by
  unfold GroupsConsistent at *
  by_cases htask : (alookup s.tasks tid).isNone
  · simp only [addToGroup_timer_cpp, htask, if_true]; exact h
  · cases hg : alookup s.groups gid with
    | none =>
        simp only [addToGroup_timer_cpp, htask, if_false, hg]
        exact h
    | some gmembers =>
        have hmem : ∀ t1 ∈ gmembers, t1 ≠ tid →
            alookup s.timer_to_group t1 = some gid := by
          intro t1 hm1 _
          exact h t1 gid gmembers hg hm1
        cases hrec : alookup s.timer_to_group tid with
        | none =>
            simp only [addToGroup_timer_cpp, htask, if_false, hg, hrec]
            refine consistentMaps_add_final gid tid gmembers h hmem ?_
            intro g1 ms1 _ hg1 hmm
            have := h tid g1 ms1 hg1 hmm
            rw [hrec] at this
            exact absurd this (by simp)
        | some old =>
            by_cases hold : old ≠ gid
            · simp only [addToGroup_timer_cpp, htask, if_false, hg, hrec]
              rw [if_pos hold]
              have h1 : consistentMaps
                  (aupdate s.groups old
                    (((alookup s.groups old).getD []).filter (fun x => x ≠ tid)))
                  s.timer_to_group := consistentMaps_filter_member old tid h
              refine consistentMaps_add_final gid tid gmembers h1 ?_ ?_
              · intro t1 hm1 hne
                exact h t1 gid gmembers hg hm1
              · intro g1 ms1 hne hg1 hmm
                by_cases hgo : old = g1
                · subst hgo
                  rw [alookup_aupdate_self] at hg1
                  injection hg1 with e
                  subst e
                  have := List.mem_filter.mp hmm
                  simp at this
                · rw [alookup_aupdate_ne _ _ _ _ hgo] at hg1
                  have := h tid g1 ms1 hg1 hmm
                  rw [hrec] at this
                  injection this with this
                  exact hgo this
            · push_neg at hold
              subst hold
              simp only [addToGroup_timer_cpp, htask, if_false, hg, hrec]
              have hcond : ¬ (old ≠ old) := fun hc => hc rfl
              rw [if_neg hcond]
              refine consistentMaps_add_final old tid gmembers h hmem ?_
              intro g1 ms1 hne hg1 hmm
              have := h tid g1 ms1 hg1 hmm
              rw [hrec] at this
              injection this with this
              exact hne this.symm

theorem workerStep_consistent (now : Nat) (s : TimerManagerState)
    (h : GroupsConsistent s) : GroupsConsistent (workerStep now s).1 := by
  unfold GroupsConsistent at *
  cases hq : queueMin s.queue with
  | none => simp only [workerStep, hq]; exact h
  | some p =>
      rcases p with ⟨t, rest⟩
      by_cases hdue : now < t.next_run
      · simp only [workerStep, hq, hdue, if_true]; exact h
      · cases hl : alookup s.tasks t.tid with
        | none => simp only [workerStep, hq, hdue, if_false, hl]; exact h
        | some tk =>
            by_cases hrep : t.repeatFlag ∧ 0 < t.interval
            · simp only [workerStep, hq, hdue, if_false, hl, hrep, if_true]
              exact h
            · cases hrec : alookup s.timer_to_group t.tid with
              | none =>
                  simp only [workerStep, hq, hdue, if_false, hl, hrep, hrec]
                  exact h
              | some gid0 =>
                  simp only [workerStep, hq, hdue, if_false, hl, hrep, hrec]
                  exact consistentMaps_remove_cond t.tid gid0 h hrec

/-- C8 (amended) -- Every timer-group operation (createGroup, addToGroup,
removeFromGroup, cancelGroup, cancel in either variant, and the worker
completing a one-shot timer) preserves the group-consistency invariant,
which entails that each TimerId belongs to at most one group.  In the
timer-manager-cpp variant, cancel, removeFromGroup, cancelGroup and the
worker completing a one-shot timer delete a group whose last member was
removed; the timer-cpp variant of cancel instead leaves the emptied
group in place (see the counterexample). -/
theorem timer_group_membership_invariants (s : TimerManagerState)
    (tid gid now : Nat) (tk : TimerTask) (ms : List Nat)
    (t : TimerTask) (rest : List TimerTask) :
    (GroupsConsistent s → ∀ (t1 g1 g2 : Nat) (ms1 ms2 : List Nat),
        alookup s.groups g1 = some ms1 → t1 ∈ ms1 →
        alookup s.groups g2 = some ms2 → t1 ∈ ms2 → g1 = g2)
      ∧ (GroupsConsistent s → GroupsConsistent (createGroup s).1)
      ∧ (GroupsConsistent s → GroupsConsistent (addToGroup_timer_cpp s gid tid).1)
      ∧ (GroupsConsistent s → GroupsConsistent (removeFromGroup s gid tid).1)
      ∧ (GroupsConsistent s → GroupsConsistent (cancelGroup s gid).1)
      ∧ (GroupsConsistent s → GroupsConsistent (cancel_timer_cpp s tid).1)
      ∧ (GroupsConsistent s → GroupsConsistent (cancel_timer_manager_cpp s tid).1)
      ∧ (GroupsConsistent s → GroupsConsistent (workerStep now s).1)
      ∧ (tid ≠ 0 → alookup s.tasks tid = some tk →
          alookup s.timer_to_group tid = some gid →
          alookup s.groups gid = some ms →
          ms.filter (fun x => x ≠ tid) = [] →
          alookup (cancel_timer_manager_cpp s tid).1.groups gid = none
            ∧ (cancel_timer_manager_cpp s tid).2 = true)
      ∧ (gid ≠ 0 → tid ≠ 0 →
          alookup s.timer_to_group tid = some gid →
          alookup s.groups gid = some ms →
          ms.filter (fun x => x ≠ tid) = [] →
          alookup (removeFromGroup s gid tid).1.groups gid = none
            ∧ (removeFromGroup s gid tid).2 = true)
      ∧ (gid ≠ 0 → alookup s.groups gid = some ms →
          alookup (cancelGroup s gid).1.groups gid = none
            ∧ (cancelGroup s gid).2 = true)
      ∧ (queueMin s.queue = some (t, rest) → ¬ now < t.next_run →
          alookup s.tasks t.tid = some tk →
          ¬ (t.repeatFlag ∧ 0 < t.interval) →
          alookup s.timer_to_group t.tid = some gid →
          alookup s.groups gid = some ms →
          ms.filter (fun x => x ≠ t.tid) = [] →
          alookup (workerStep now s).1.groups gid = none) := by
  refine ⟨?_, createGroup_consistent s, addToGroup_timer_cpp_consistent s gid tid,
    removeFromGroup_consistent s gid tid, cancelGroup_consistent s gid,
    cancel_timer_cpp_consistent s tid, cancel_timer_manager_cpp_consistent s tid,
    workerStep_consistent now s, ?_, ?_, ?_, ?_⟩
  · intro h t1 g1 g2 ms1 ms2 hg1 hm1 hg2 hm2
    exact consistentMaps_atMostOne h t1 g1 g2 ms1 ms2 hg1 hm1 hg2 hm2
  · intro h0 ht hg hms hflt
    constructor
    · simp only [cancel_timer_manager_cpp, h0, if_false, ht, hg, hms,
        Option.getD_some, hflt, List.isEmpty_nil, if_true]
      exact alookup_aerase_self s.groups gid
    · simp only [cancel_timer_manager_cpp, h0, if_false, ht, hg, hms]
  · intro hg0 h0 hg hms hflt
    have hor : ¬ (gid = 0 ∨ tid = 0) := by
      rintro (hc | hc)
      · exact hg0 hc
      · exact h0 hc
    have hcond : ¬ (gid ≠ gid) := fun hc => hc rfl
    constructor
    · simp only [removeFromGroup, hor, if_false, hg]
      rw [if_neg hcond]
      simp only [hms, hflt, List.isEmpty_nil, if_true]
      exact alookup_aerase_self s.groups gid
    · simp only [removeFromGroup, hor, if_false, hg]
      rw [if_neg hcond]
  · intro hg0 hms
    constructor
    · simp only [cancelGroup, hg0, if_false, hms, rebuildQueue]
      exact alookup_aerase_self s.groups gid
    · simp only [cancelGroup, hg0, if_false, hms]
  · intro hq hdue hl hrep hrec hms hflt
    simp only [workerStep, hq, hdue, if_false, hl, hrep, hrec, hms,
      Option.getD_some, hflt, List.isEmpty_nil, if_true]
    exact alookup_aerase_self s.groups gid

/-- Witness for the amended C8: cancelling timer 5 (the sole member of
group 1) through the timer-manager-cpp variant deletes group 1. -/
theorem timer_group_membership_invariants_witness :
    ((5 : Nat) ≠ 0
        ∧ alookup [((5 : Nat), (⟨5, 10, 0, false⟩ : TimerTask))] 5
            = some ⟨5, 10, 0, false⟩
        ∧ alookup [((5 : Nat), (1 : Nat))] 5 = some 1
        ∧ alookup [((1 : Nat), [(5 : Nat)])] 1 = some [5]
        ∧ [(5 : Nat)].filter (fun x => x ≠ 5) = [])
      ∧ alookup (cancel_timer_manager_cpp
            ⟨[(5, ⟨5, 10, 0, false⟩)], [⟨5, 10, 0, false⟩], [(1, [5])],
              [(5, 1)], 6, 2⟩ 5).1.groups 1 = none :=
  ⟨⟨by decide, by decide, by decide, by decide, by decide⟩,
    ((timer_group_membership_invariants
        ⟨[(5, ⟨5, 10, 0, false⟩)], [⟨5, 10, 0, false⟩], [(1, [5])],
          [(5, 1)], 6, 2⟩ 5 1 0 ⟨5, 10, 0, false⟩ [5] ⟨5, 10, 0, false⟩
        []).2.2.2.2.2.2.2.2.1 (by decide) (by decide) (by decide) (by decide)
      (by decide)).1⟩

/-- Counterexample for C8 as stated: in the timer-cpp variant,
cancel(5) on the sole member of group 1 returns true and removes the
timer, but group 1 survives with an empty member vector instead of being
deleted. -/
theorem timer_cpp_cancel_leaves_empty_group_counterexample :
    (cancel_timer_cpp ⟨[(5, ⟨5, 10, 0, false⟩)], [⟨5, 10, 0, false⟩],
          [(1, [5])], [(5, 1)], 6, 2⟩ 5).2 = true
      ∧ alookup (cancel_timer_cpp ⟨[(5, ⟨5, 10, 0, false⟩)],
            [⟨5, 10, 0, false⟩], [(1, [5])], [(5, 1)], 6, 2⟩ 5).1.groups 1
          = some []
      ∧ alookup (cancel_timer_cpp ⟨[(5, ⟨5, 10, 0, false⟩)],
            [⟨5, 10, 0, false⟩], [(1, [5])], [(5, 1)], 6, 2⟩ 5).1.tasks 5
          = none := by
  refine ⟨?_, ?_, ?_⟩ <;> decide

end NextGen
